import Mathlib

/-!
Verification development for the CV text-to-structured-document pipeline
(`backend/services/cv_generator.py`).  The parser `_parse_datamatics_content`
and the Datamatics renderer `_generate_datamatics_format` /
`_add_document_header` are shallowly embedded below; Python string and regex
operations are modelled by executable character-list functions.
-/

set_option maxRecDepth 8000

/-- Python whitespace characters stripped by `str.strip()` / matched by `\s`. -/
def isWs (c : Char) : Bool :=
  c = ' ' || c = '\t' || c = '\n' || c = '\r' || c = '\x0b' || c = '\x0c'

/-- ASCII lower-casing of one character (models `str.lower()` on the ASCII inputs used). -/
def lowerC (c : Char) : Char :=
  if 'A' ≤ c ∧ c ≤ 'Z' then Char.ofNat (c.toNat + 32) else c

/-- ASCII upper-casing of one character (models `str.upper()` on the ASCII inputs used). -/
def upperC (c : Char) : Char :=
  if 'a' ≤ c ∧ c ≤ 'z' then Char.ofNat (c.toNat - 32) else c

/-- `str.lower()`. -/
def pyLower (s : String) : String := ⟨s.data.map lowerC⟩

/-- `str.upper()`. -/
def pyUpper (s : String) : String := ⟨s.data.map upperC⟩

/-- `str.strip()`: drop leading and trailing whitespace. -/
def pyStrip (s : String) : String :=
  ⟨((s.data.dropWhile isWs).reverse.dropWhile isWs).reverse⟩

/-- `str.rstrip('.')`: drop all trailing dots (used on responsibility text). -/
def rstripDots (s : String) : String :=
  ⟨(s.data.reverse.dropWhile (· = '.')).reverse⟩

/-- `re.sub(r'\.$', '', s)`: drop a single trailing dot. -/
def rstripDot (s : String) : String :=
  match s.data.reverse with
  | '.' :: rest => ⟨rest.reverse⟩
  | _ => s

/-- Substring containment on character lists: Python's `pat in s`. -/
def inChars (pat : List Char) : List Char → Bool
  | [] => pat.isPrefixOf []
  | c :: t => pat.isPrefixOf (c :: t) || inChars pat t

/-- Python's `pat in s` for strings. -/
def pyIn (pat s : String) : Bool := inChars pat.data s.data

/-- Python's `s.startswith(pre)`. -/
def pyStarts (s pre : String) : Bool := pre.data.isPrefixOf s.data

/-- Python's `s.endswith(suf)`. -/
def pyEnds (s suf : String) : Bool := suf.data.isSuffixOf s.data

/-- Python's `s.count(c)` for a single character. -/
def countC (s : String) (c : Char) : Nat := s.data.count c

/-- Split a character list at every occurrence of one character (`str.split(sep)`). -/
def splitCh (sep : Char) : List Char → List (List Char)
  | [] => [[]]
  | c :: t =>
    if c = sep then [] :: splitCh sep t
    else
      match splitCh sep t with
      | [] => [[c]]
      | x :: xs => (c :: x) :: xs

/-- `str.split(sep)` for a one-character separator. -/
def pySplitChar (sep : Char) (s : String) : List String :=
  (splitCh sep s.data).map (fun l => ⟨l⟩)

/-- Split at the first occurrence of `sep` (`str.split(sep, 1)` when it returns two parts). -/
def splitFirst (sep : List Char) : List Char → Option (List Char × List Char)
  | [] => if sep.isPrefixOf ([] : List Char) then some ([], []) else none
  | c :: t =>
    if sep.isPrefixOf (c :: t) then some ([], (c :: t).drop sep.length)
    else
      match splitFirst sep t with
      | some (a, b) => some (c :: a, b)
      | none => none

/-- Case-insensitive prefix test: does `cs` start with the (lower-case) literal `lab`? -/
def ciPre (lab : List Char) (cs : List Char) : Bool :=
  (cs.take lab.length).map lowerC = lab

/-- Remove every occurrence of any listed label (labels given lower-case, matched
case-insensitively, earlier labels preferred); fuel-driven for structural recursion. -/
def removeLabsF (labs : List (List Char)) : Nat → List Char → List Char
  | 0, cs => cs
  | _ + 1, [] => []
  | n + 1, c :: t =>
    match labs.findSome? (fun lab => if ciPre lab (c :: t) then some lab.length else none) with
    | some k => removeLabsF labs n (t.drop (k - 1))
    | none => c :: removeLabsF labs n t

/-- Remove every occurrence of the listed labels from a string. -/
def removeLabs (labs : List String) (s : String) : String :=
  ⟨removeLabsF (labs.map String.data) s.data.length s.data⟩

/-- `re.sub(r'^[-•*▪]\s*', '', line)`: strip one leading bullet glyph and following whitespace. -/
def stripBullet (line : String) : String :=
  match line.data with
  | c :: t =>
    if c = '-' || c = '•' || c = '*' || c = '▪' then ⟨t.dropWhile isWs⟩ else line
  | [] => line

/-- `re.sub(r'^dates?:\s*', '', s, flags=re.IGNORECASE)`: one anchored removal. -/
def stripLeadDates (s : String) : String :=
  if ciPre "dates:".data s.data then ⟨(s.data.drop 6).dropWhile isWs⟩
  else if ciPre "date:".data s.data then ⟨(s.data.drop 5).dropWhile isWs⟩
  else s

/-- `re.sub(r'^Dates:\s*', '', s, flags=re.IGNORECASE)` in the renderer (no optional `s`). -/
def stripLeadDatesRender (s : String) : String :=
  if ciPre "dates:".data s.data then ⟨(s.data.drop 6).dropWhile isWs⟩ else s

/-- `re.sub(r'^\d+\.\s*', '', s)`: strip leading numbering like `1. `. -/
def stripNumbering (s : String) : String :=
  let ds := s.data.takeWhile Char.isDigit
  let rest := s.data.dropWhile Char.isDigit
  if ds ≠ [] then
    match rest with
    | '.' :: r => ⟨r.dropWhile isWs⟩
    | _ => s
  else s

/-- `re.sub(r'\*\*([^*]+)\*\*', r'\1', s)`: unwrap markdown bold (fuel-driven). -/
def stripBoldF : Nat → List Char → List Char
  | 0, cs => cs
  | n + 1, '*' :: '*' :: rest =>
    let run := rest.takeWhile (· ≠ '*')
    let r2 := rest.dropWhile (· ≠ '*')
    if run ≠ [] ∧ r2.take 2 = ['*', '*'] then run ++ stripBoldF n (r2.drop 2)
    else '*' :: stripBoldF n ('*' :: rest)
  | n + 1, c :: t => c :: stripBoldF n t
  | _ + 1, [] => []

def stripBold (s : String) : String := ⟨stripBoldF s.data.length s.data⟩

/-- `re.sub(r'\*([^*]+)\*', r'\1', s)`: unwrap markdown italics (fuel-driven). -/
def stripItalF : Nat → List Char → List Char
  | 0, cs => cs
  | n + 1, '*' :: rest =>
    let run := rest.takeWhile (· ≠ '*')
    let r2 := rest.dropWhile (· ≠ '*')
    if run ≠ [] ∧ r2.take 1 = ['*'] then run ++ stripItalF n (r2.drop 1)
    else '*' :: stripItalF n rest
  | n + 1, c :: t => c :: stripItalF n t
  | _ + 1, [] => []

def stripItal (s : String) : String := ⟨stripItalF s.data.length s.data⟩

/-- `re.sub(r'<b>|</b>|<strong>|</strong>', '', s, flags=re.IGNORECASE)`. -/
def stripHtmlB (s : String) : String :=
  removeLabs ["<b>", "</b>", "<strong>", "</strong>"] s

/-- Markdown cleanup used throughout the renderer: bold then italics. -/
def mdClean (s : String) : String := stripItal (stripBold s)

/-- Exactly `n` ASCII digits; returns the remaining characters. -/
def matchDigits : Nat → List Char → Option (List Char)
  | 0, cs => some cs
  | _ + 1, [] => none
  | n + 1, c :: t => if c.isDigit then matchDigits n t else none

/-- `[0-9]{k}/[0-9]{4}` at the head of the list. -/
def mmSlash (k : Nat) (cs : List Char) : Option (List Char) :=
  match matchDigits k cs with
  | some ('/' :: r) => matchDigits 4 r
  | _ => none

/-- Possible remainders after the left alternative `[0-9]{1,2}/[0-9]{4}|[0-9]{4}`. -/
def leftDateRem (cs : List Char) : List (List Char) :=
  (mmSlash 2 cs).toList ++ (mmSlash 1 cs).toList ++ (matchDigits 4 cs).toList

/-- `\s*[-–—]\s*` at the head of the list. -/
def wsDashWs (cs : List Char) : Option (List Char) :=
  match cs.dropWhile isWs with
  | c :: r => if c = '-' || c = '–' || c = '—' then some (r.dropWhile isWs) else none
  | [] => none

/-- Right alternative `[0-9]{1,2}/[0-9]{4}|[0-9]{4}|present|current` at the head. -/
def rightDateOk (cs : List Char) : Bool :=
  (mmSlash 2 cs).isSome || (mmSlash 1 cs).isSome || (matchDigits 4 cs).isSome ||
    "present".data.isPrefixOf cs || "current".data.isPrefixOf cs

/-- Whole date-range pattern anchored at the current position. -/
def dateAtPos (cs : List Char) : Bool :=
  (leftDateRem cs).any (fun rem =>
    match wsDashWs rem with
    | some r => rightDateOk r
    | none => false)

/-- Scan helper for `hasDateRange`. -/
def dateScan : List Char → Bool
  | [] => false
  | c :: t => dateAtPos (c :: t) || dateScan t

/-- `re.search` of the date-range pattern
`([0-9]{1,2}/[0-9]{4}|[0-9]{4})\s*[-–—]\s*([0-9]{1,2}/[0-9]{4}|[0-9]{4}|present|current)`
with `re.IGNORECASE` (the line is lower-cased before scanning). -/
def hasDateRange (s : String) : Bool := dateScan (pyLower s).data

/-- `re.match(r'^\d{1,2}/\d{4}', s)`: anchored date prefix. -/
def startsDate (s : String) : Bool :=
  (mmSlash 2 s.data).isSome || (mmSlash 1 s.data).isSome

/-- ASCII word character for `\b` boundaries. -/
def isWordC (c : Char) : Bool :=
  c.isDigit || ('a' ≤ c ∧ c ≤ 'z') || ('A' ≤ c ∧ c ≤ 'Z') || c = '_'

/-- `\b(19|20)\d{2}\b` anchored at the current position, `prev` the preceding character. -/
def yearAtPos (prev : Option Char) : List Char → Bool
  | a :: b :: c :: d :: rest =>
    ((a = '1' ∧ b = '9') ∨ (a = '2' ∧ b = '0')) && c.isDigit && d.isDigit &&
      (match prev with
       | none => true
       | some p => !isWordC p) &&
      (match rest with
       | [] => true
       | r :: _ => !isWordC r)
  | _ => false

/-- Scan helper for `yearSearch`. -/
def yearScan (prev : Option Char) : List Char → Bool
  | [] => false
  | c :: t => yearAtPos prev (c :: t) || yearScan (some c) t

/-- `re.search(r'\b(19|20)\d{2}\b', s)`. -/
def yearSearch (s : String) : Bool := yearScan none s.data

/-- `\s+and\s+` separator at the head of the list; returns the remainder. -/
def andSep (cs : List Char) : Option (List Char) :=
  let ws1 := cs.takeWhile isWs
  let r1 := cs.dropWhile isWs
  if ws1 ≠ [] ∧ "and".data.isPrefixOf r1 then
    let r2 := r1.drop 3
    if (r2.takeWhile isWs) ≠ [] then some (r2.dropWhile isWs) else none
  else none

/-- Prepend a character to the first token of a token list. -/
def consHead (c : Char) : List (List Char) → List (List Char)
  | [] => [[c]]
  | x :: xs => (c :: x) :: xs

/-- `re.split(r'[,;]|\s+and\s+', s)` (fuel-driven). -/
def techSplitF : Nat → List Char → List (List Char)
  | 0, cs => [cs]
  | _ + 1, [] => [[]]
  | n + 1, c :: t =>
    if c = ',' || c = ';' then [] :: techSplitF n t
    else
      match andSep (c :: t) with
      | some rest => [] :: techSplitF n rest
      | none => consHead c (techSplitF n t)

def techSplit (s : String) : List String :=
  (techSplitF s.data.length s.data).map (fun l => ⟨l⟩)

/-- Is the first character of the list an upper-case ASCII letter? -/
def headUpper : List Char → Bool
  | c :: _ => 'A' ≤ c ∧ c ≤ 'Z'
  | [] => false

/-- `re.split(r'(?<=[.!?])\s+(?=[A-Z])', s)` (fuel-driven sentence splitting). -/
def sentSplitF : Nat → List Char → List (List Char)
  | 0, cs => [cs]
  | _ + 1, [] => [[]]
  | n + 1, c :: t =>
    if (c = '.' || c = '!' || c = '?') ∧ (t.takeWhile isWs) ≠ [] ∧ headUpper (t.dropWhile isWs) then
      [c] :: sentSplitF n (t.dropWhile isWs)
    else consHead c (sentSplitF n t)

def sentSplit (s : String) : List String :=
  (sentSplitF s.data.length s.data).map (fun l => ⟨l⟩)

/-- Python `str.isupper()`: at least one cased character and no lower-case one (ASCII). -/
def pyIsUpper (s : String) : Bool :=
  s.data.any (fun c => ('a' ≤ c ∧ c ≤ 'z') ∨ ('A' ≤ c ∧ c ≤ 'Z')) &&
    !s.data.any (fun c => 'a' ≤ c ∧ c ≤ 'z')

/-- `line_lower.replace(' ', '')`. -/
def removeSpaces (s : String) : String := ⟨s.data.filter (· ≠ ' ')⟩

/-- Safe last element, mirroring Python's guarded `l[-1]`. -/
def pyLastQ : List String → Option String
  | [] => none
  | [x] => some x
  | _ :: y :: t => pyLastQ (y :: t)

def pyLast (l : List String) : String := (pyLastQ l).getD ""

/-- Safe indexing, mirroring Python's guarded `l[n]`. -/
def pyIdxQ : List String → Nat → Option String
  | [], _ => none
  | x :: _, 0 => some x
  | _ :: t, n + 1 => pyIdxQ t n

def pyIdx (l : List String) (n : Nat) : String := (pyIdxQ l n).getD ""

/-! ## Data model (`_parse_datamatics_content`'s `content` dict and project dicts) -/

/-- One work-history entry, as built by `_parse_datamatics_content`. -/
structure Project where
  title : String
  dates : String
  location : String
  responsibilities : List String
  technologies : List String
deriving DecidableEq, Repr

/-- The section keys the scanner can be inside (`current_section`). -/
inductive Sect
  | technicalSkills
  | industryExperience
  | functionalSkills
  | education
  | summary
  | certifications
  | eduCertCombined
  | projects
deriving DecidableEq, Repr

/-- Scanner state: the `content` dict plus `current_section` / `current_project`. -/
structure PState where
  header : String
  technical_skills : List String
  industry_experience : List String
  functional_skills : List String
  education : List String
  summary : List String
  certifications : List String
  projects : List Project
  currentSection : Option Sect
  currentProject : Option Project
deriving DecidableEq, Repr

def initState : PState :=
  { header := "", technical_skills := [], industry_experience := [],
    functional_skills := [], education := [], summary := [], certifications := [],
    projects := [], currentSection := none, currentProject := none }

/-! ## Line classification conditions (lines 741-797 of the scanner) -/

/-- Header sniffing condition (lines 742-744). -/
def headerCond (st : PState) (line : String) : Bool :=
  pyIn "|" line && st.currentSection.isNone && st.header = "" && line.length < 100 &&
    !pyStarts line "-" && !pyStarts line "•" && !pyStarts line "["

/-- Bracketed marker that is skipped with no state change (line 750). -/
def markerSkip (line : String) : Bool :=
  pyIn "[LEFT_COLUMN_START]" line || pyIn "[LEFT_COLUMN]" line

/-- Bracketed markers that reset the current section (line 753). -/
def markerReset1 (line : String) : Bool :=
  pyIn "[LEFT_COLUMN_END]" line || pyIn "[RIGHT_COLUMN_START]" line

/-- Bracketed markers that reset the current section (line 757): note that
`[PROJECTS_EXPERIENCE]` resets to no section rather than opening projects. -/
def markerReset2 (line : String) : Bool :=
  pyIn "[RIGHT_COLUMN_END]" line || pyIn "[PROJECTS_EXPERIENCE]" line

/-- Keyword section detection chain (lines 763-797), first match wins. -/
def detectSection (line ll : String) : Option Sect :=
  if (pyIn "technical skills" ll || (pyStarts ll "technical" && pyIn "skill" ll)) &&
      (pyIn ":" line || line.length < 30) then some .technicalSkills
  else if (pyIn "industry experience" ll || (pyStarts ll "industry" && pyIn "experience" ll)) &&
      (pyIn ":" line || line.length < 30) then some .industryExperience
  else if (pyIn "functional skills" ll || (pyStarts ll "functional" && pyIn "skill" ll)) &&
      (pyIn ":" line || line.length < 30) then some .functionalSkills
  else if (pyIn "education" ll && pyIn "qualification" ll && pyIn "certification" ll) ||
      pyIn "education/qualification" (removeSpaces ll) ||
      ((pyIn "education" ll || pyIn "qualification" ll) && pyIn "certification" ll && pyIn "/" line) then
    some .eduCertCombined
  else if pyIn "education" ll && pyIn ":" line && !pyIn "certification" ll then some .education
  else if pyIn "summary" ll && (pyIn ":" line || line.length < 30) then some .summary
  else if (pyIn "certification" ll || pyIn "trainings" ll) && (pyIn ":" line || line.length < 40) then
    some .certifications
  else if pyIn "projects experience" ll || (pyStarts ll "projects" && pyIn "experience" ll) then
    some .projects
  else none

/-- Keywords that re-route a line while inside a flat section (line 802). -/
def rerouteKw (ll : String) : Bool :=
  ["technical skills", "industry experience", "functional skills", "summary", "projects"].any
    (fun k => pyIn k ll)

/-- Nested section reassignment once a reroute keyword is seen (lines 804-818). -/
def rerouteTarget (ll : String) : Option Sect :=
  if pyIn "education" ll && pyIn "qualification" ll && pyIn "certification" ll then
    some .eduCertCombined
  else if pyIn "technical skills" ll || (pyStarts ll "technical" && pyIn "skill" ll) then
    some .technicalSkills
  else if pyIn "industry experience" ll then some .industryExperience
  else if pyIn "functional skills" ll then some .functionalSkills
  else if pyIn "education" ll && !pyIn "certification" ll then some .education
  else if pyIn "certification" ll || pyIn "trainings" ll then some .certifications
  else none

/-- Section-title echoes excluded from technical-skills and education entries (lines 829, 884). -/
def echo8 : List String :=
  ["technical skills", "industry experience", "functional skills", "education",
   "certification", "certifications", "summary", "projects experience"]

/-- Section-title echoes excluded from generic list sections (line 887). -/
def echo7 : List String :=
  ["technical skills", "industry experience", "functional skills", "education",
   "certification", "certifications", "summary"]

/-- Degree keywords routing a combined-section line to education (lines 839-843). -/
def eduKw : List String :=
  ["bachelor", "master", "phd", "doctorate", "degree", "diploma",
   "b.sc", "b.tech", "m.sc", "m.tech", "mba", "bba", "bca", "mca",
   "university", "college", "institute", "b.e", "be ", "engineering"]

/-- Certification-vendor keywords blocking the location/year continuation (lines 851-855). -/
def certKw : List String :=
  ["aws", "azure", "certified", "certification", "microsoft", "oracle",
   "sap", "cisco", "google", "professional", "associate", "expert",
   "cloud", "administrator", "developer", "architect", "engineer"]

/-- Keywords that make a bulleted project line look like a section header (line 965). -/
def bulletKw : List String :=
  ["technical skills", "summary", "education", "certification", "projects"]

/-- Keywords that stop a colon-terminated line from becoming a category header (line 972). -/
def catKw : List String :=
  ["technical skills", "industry experience", "functional skills", "education",
   "summary", "certification", "projects experience", "work experience"]

/-- Keywords that drop a bare project-section line outright (line 974). -/
def bareKw : List String :=
  ["left_column", "right_column", "projects experience", "technical skills",
   "industry experience", "functional skills", "education", "summary", "certification"]

/-- Job-title indicator substrings for the new-project-title heuristic (line 982). -/
def titleInd : List String :=
  [" – ", " manager", " consultant", " lead", " engineer", " analyst",
   " developer", " director"]

/-! ## Scanner step (lines 799-1007) -/

/-- Title/company delimiter presence (line 903). -/
def titleCompanyCond (line : String) : Bool :=
  pyIn " / " line || (pyIn "," line && pyIn "|" line) || pyIn "|" line

/-- Combined single-line project header condition (line 906). -/
def combinedHeaderCond (line : String) : Bool :=
  hasDateRange line && titleCompanyCond line && !pyStarts line "-" && !pyStarts line "•"

/-- Legacy separate dates line condition (line 938). -/
def legacyDatesCond (line ll : String) : Bool :=
  pyIn "dates:" ll || (hasDateRange line && !titleCompanyCond line)

/-- Bulleted responsibility line condition (line 960). -/
def bulletLineCond (line : String) : Bool :=
  pyStarts line "-" || pyStarts line "•" || pyStarts line "▪"

/-- Category-header line condition, outer part (line 967). -/
def catHeaderCond (line ll : String) : Bool :=
  pyEnds line ":" && !pyStarts ll "technologies" && !pyStarts ll "dates" &&
    decide (line.length < 100)

/-- Bare candidate line condition (line 974). -/
def bareLineCond (line ll : String) : Bool :=
  (line != "") && !bareKw.any (fun k => pyIn k ll)

/-- New-project-title heuristic (lines 978-984); `cpResp` says whether the current
project already has a responsibility. -/
def likelyTitle (cpResp : Bool) (line ll : String) : Bool :=
  pyIsUpper line || pyIn " / " line || pyIn "|" line ||
    titleInd.any (fun k => pyIn k ll) || cpResp

/-- The pipe-split, stripped parts of a combined header line (line 908). -/
def projParts (line : String) : List String := (pySplitChar '|' line).map pyStrip

/-- Combined Education/Qualifications/Certifications section step (lines 837-876).
`clean` is the bullet-stripped line. -/
def combinedStep (st : PState) (clean : String) : PState :=
  let isEdu := eduKw.any (fun k => pyIn k (pyLower clean))
  let isLocYear := !isEdu && !st.education.isEmpty &&
    (pyIn "|" clean || yearSearch clean) && clean.length < 50 &&
    !certKw.any (fun k => pyIn k (pyLower clean))
  if isEdu then
    let ec := pyStrip (rstripDot clean)
    if ec ≠ "" ∧ 5 < ec.length then { st with education := [ec] } else st
  else if isLocYear then
    if st.education ≠ [] then
      { st with education := st.education.dropLast ++ [pyLast st.education ++ ", " ++ clean] }
    else st
  else
    let cc := pyStrip (rstripDot clean)
    if cc ≠ "" ∧ 3 < cc.length then { st with certifications := st.certifications ++ [cc] }
    else st

/-- Flat-section content handling (lines 821-888) for the non-combined flat
sections; `clean` is the bullet-stripped line. -/
def flatBody (st : PState) (sec : Sect) (clean : String) : PState :=
  match sec with
    | .technicalSkills =>
      if pyIn ":" clean then
        if clean ≠ "" ∧ 3 < clean.length ∧ !echo8.contains (pyLower clean) then
          { st with technical_skills := st.technical_skills ++ [clean] }
        else st
      else
        if clean ≠ "" ∧ 3 < clean.length ∧ !echo8.contains (pyLower clean) then
          { st with technical_skills := st.technical_skills ++ [clean] }
        else st
    | .education =>
      let ec := pyStrip (rstripDot clean)
      if ec ≠ "" ∧ 5 < ec.length ∧ !echo8.contains (pyLower ec) then
        { st with education := [ec] }
      else st
    | .industryExperience =>
      if clean ≠ "" ∧ !echo7.contains (pyLower clean) then
        { st with industry_experience := st.industry_experience ++ [clean] }
      else st
    | .functionalSkills =>
      if clean ≠ "" ∧ !echo7.contains (pyLower clean) then
        { st with functional_skills := st.functional_skills ++ [clean] }
      else st
    | .certifications =>
      if clean ≠ "" ∧ !echo7.contains (pyLower clean) then
        { st with certifications := st.certifications ++ [clean] }
      else st
    | _ => st

/-- Push the in-progress project if it has a title or responsibilities (lines 926-927, 988-990). -/
def savePrev (st : PState) : List Project :=
  match st.currentProject with
  | some cp => if cp.title ≠ "" ∨ cp.responsibilities ≠ [] then st.projects ++ [cp] else st.projects
  | none => st.projects

/-- Extract `dates`/`location` from a legacy dates line after label removal (lines 941-947):
`re.search(r'\|\s*(.+)$', d0)` and the matching `re.sub`. -/
def datesLoc (d0 : String) : String × String :=
  match splitFirst ['|'] d0.data with
  | some (before, after) =>
    if after ≠ [] then (pyStrip ⟨before⟩, pyStrip ⟨after⟩) else (d0, "")
  | none => (d0, "")

/-- Projects-section step (lines 893-1007). -/
def projStep (st : PState) (line ll : String) : PState :=
  if combinedHeaderCond line then
    let parts := projParts line
    if 2 ≤ parts.length then
      let title := pyIdx parts 0
      let dates := pyStrip (stripLeadDates (pyIdx parts 1))
      let location := if 2 < parts.length then pyIdx parts 2 else ""
      { st with projects := savePrev st,
                currentProject := some ⟨title, dates, location, [], []⟩ }
    else st
  else if legacyDatesCond line ll then
    let d0 := pyStrip (removeLabs ["dates:", "date:"] line)
    let dl := datesLoc d0
    match st.currentProject with
    | some cp =>
      let cp2 := { cp with dates := dl.1,
                           location := if dl.2 ≠ "" then dl.2 else cp.location }
      { st with currentProject := some cp2 }
    | none => st
  else if pyIn "technologies:" ll then
    let techText := pyStrip (removeLabs ["technologies:", "technologie:"] line)
    let techs := ((techSplit techText).map pyStrip).filter (· ≠ "")
    match st.currentProject with
    | some cp => { st with currentProject := some { cp with technologies := techs } }
    | none => st
  else if bulletLineCond line then
    let clean := pyStrip (stripBullet line)
    match st.currentProject with
    | some cp =>
      if clean ≠ "" ∧ 5 < clean.length then
        if !bulletKw.any (fun k => pyIn k (pyLower clean)) then
          let cp2 := { cp with responsibilities := cp.responsibilities ++ [clean] }
          { st with currentProject := some cp2 }
        else st
      else st
    | none => st
  else if catHeaderCond line ll then
    match st.currentProject with
    | some cp =>
      if line ≠ "" ∧ countC line ':' = 1 then
        if !catKw.any (fun k => pyIn k ll) then
          let cp2 := { cp with responsibilities := cp.responsibilities ++ [line] }
          { st with currentProject := some cp2 }
        else st
      else st
    | none => st
  else if bareLineCond line ll then
    if !startsDate line && !pyIn "technologies" ll then
      if likelyTitle
          (match st.currentProject with
           | some cp => !cp.responsibilities.isEmpty
           | none => false) line ll then
        { st with projects := savePrev st,
                  currentProject := some ⟨line, "", "", [], []⟩ }
      else
        match st.currentProject with
        | some cp =>
          if 150 < line.length then
            let sents := ((sentSplit line).map pyStrip).filter
              (fun s => s ≠ "" && decide (10 < s.length))
            let cp2 := { cp with responsibilities := cp.responsibilities ++ sents }
            { st with currentProject := some cp2 }
          else if 10 < line.length then
            let cp2 := { cp with responsibilities := cp.responsibilities ++ [line] }
            { st with currentProject := some cp2 }
          else st
        | none => st
    else st
  else st

/-- One iteration of the scanning loop of `_parse_datamatics_content` (lines 733-1009). -/
def procLine (st : PState) (raw : String) : PState :=
  let line := pyStrip raw
  if line = "" then st
  else
    let ll := pyLower line
    if headerCond st line then { st with header := line }
    else if markerSkip line then st
    else if markerReset1 line then { st with currentSection := none }
    else if markerReset2 line then { st with currentSection := none }
    else
      match detectSection line ll with
      | some s => { st with currentSection := some s }
      | none =>
        match st.currentSection with
        | none => st
        | some .summary =>
          if line ≠ "" ∧ !pyStarts line "-" ∧ !pyStarts line "•" then
            { st with summary := st.summary ++ [line] }
          else st
        | some .projects => projStep st line ll
        | some sec =>
          if rerouteKw ll then { st with currentSection := rerouteTarget ll }
          else
            let clean := pyStrip (stripBullet line)
            match sec with
            | .eduCertCombined => combinedStep st clean
            | _ => flatBody st sec clean

/-- Final push of the last in-progress project (lines 1011-1013): unconditional. -/
def finalizeProjects (st : PState) : PState :=
  match st.currentProject with
  | some p => { st with projects := st.projects ++ [p] }
  | none => st

/-- `_parse_datamatics_content`: split on newlines, scan, push the last project. -/
def parseDatamaticsContent (text : String) : PState :=
  finalizeProjects ((pySplitChar '\n' text).foldl procLine initState)

/-! ## Renderer (`_generate_datamatics_format` and `_add_document_header`) -/

/-- A text run with its font colour and boldness (the properties the claims mention). -/
structure RunSpec where
  text : String
  color : Option (Nat × Nat × Nat)
  bold : Bool
deriving DecidableEq, Repr

/-- First-page header band runs (lines 626-666): `Name | Position`, name in black,
position in the accent colour RGB(91,155,213). -/
def headerBandRuns (headerText : String) : List RunSpec :=
  if headerText ≠ "" then
    let np :=
      if pyIn "|" headerText then
        let parts := (pySplitChar '|' headerText).map pyStrip
        (pyIdx parts 0, if 1 < parts.length then pyIdx parts 1 else "")
      else (headerText, "")
    if np.1 ≠ "" ∧ np.2 ≠ "" then
      [⟨np.1 ++ " | ", some (0, 0, 0), true⟩, ⟨np.2, some (91, 155, 213), true⟩]
    else if np.1 ≠ "" then [⟨np.1, some (0, 0, 0), true⟩]
    else []
  else []

/-- Items emitted into the left column. -/
inductive LeftItem
  | sectionHeader (t : String)
  | categorySkill (category skills : String)
  | bullet (t : String)
  | spacer
deriving DecidableEq, Repr

/-- Text cleanup done by `_add_bullet_point` (lines 508-516). -/
def bulletClean (t : String) : String := pyStrip (stripHtmlB (mdClean t))

/-- Technical-skills rendering of one line (lines 129-149). -/
def renderSkillLine (line : String) : List LeftItem :=
  if pyIn ":" line then
    match splitFirst [':'] line.data with
    | some (a, b) =>
      let category := pyStrip ⟨a⟩
      let skills := mdClean (pyStrip ⟨b⟩)
      if category ≠ "" ∧ skills ≠ "" then
        [.categorySkill (mdClean category) (mdClean skills)]
      else []
    | none => []
  else [.bullet (bulletClean (mdClean line))]

/-- Left column of the two-column table (lines 106-175): technical skills with
categories, then functional skills, then industry experience. -/
def renderLeftColumn (c : PState) : List LeftItem :=
  (if c.technical_skills ≠ [] then
    [LeftItem.sectionHeader "Technical Skills"] ++
      (c.technical_skills.map renderSkillLine).flatten ++ [LeftItem.spacer]
   else []) ++
  (if c.functional_skills ≠ [] then
    [LeftItem.sectionHeader "Functional Skills"] ++
      c.functional_skills.map (fun s => LeftItem.bullet (bulletClean s)) ++ [LeftItem.spacer]
   else []) ++
  (if c.industry_experience ≠ [] then
    [LeftItem.sectionHeader "Industry Experience"] ++
      c.industry_experience.map (fun s => LeftItem.bullet (bulletClean s)) ++ [LeftItem.spacer]
   else [])

/-- Items emitted inside one work-experience project block. -/
inductive WorkItem
  | categoryHeader (t : String)
  | bullet (t : String)
  | techLine (t : String)
deriving DecidableEq, Repr

/-- Render-time category-header predicate (lines 390-398), applied to the
stripped responsibility text. -/
def isCategoryHeaderRender (s : String) : Bool :=
  pyEnds s ":" && !pyStarts s "-" && !pyStarts s "•" && !pyStarts s "▪" &&
    decide (s.length < 100) && (countC s ':' == 1) && !pyStarts s "Technologies"

/-- Parse-time category-header admission condition of structurer rule 5
(lines 967-972), with the `current_project` state conjunct omitted. -/
def isCategoryHeaderParse (s : String) : Bool :=
  pyEnds s ":" && !pyStarts (pyLower s) "technologies" && !pyStarts (pyLower s) "dates" &&
    decide (s.length < 100) && (countC s ':' == 1) &&
    !catKw.any (fun k => pyIn k (pyLower s))

/-- Rendering of one responsibility entry (lines 385-425). -/
def renderResp (resp : String) : List WorkItem :=
  let rc := pyStrip resp
  if isCategoryHeaderRender rc then [.categoryHeader rc]
  else
    let t := rstripDots (mdClean (pyStrip (stripBullet rc)))
    if t ≠ "" ∧ 3 < t.length then [.bullet (bulletClean t)] else []

/-- The uppercase bold header line of a project block (lines 317-370). -/
def projectHeaderText (p : Project) : String :=
  let titleText := if p.title = "" then "Position / Company" else p.title
  let location := if p.location ≠ "" then pyStrip p.location else ""
  let titleParts :=
    if pyIn " / " titleText then
      match splitFirst " / ".data titleText.data with
      | some (a, b) =>
        let job := pyUpper (pyStrip ⟨a⟩)
        let company := pyUpper (pyStrip ⟨b⟩)
        [job] ++ (if company ≠ "" then [" – ", company] else [])
      | none => [pyUpper titleText]
    else if pyIn "," titleText ∧ location = "" then
      let ps := (pySplitChar ',' titleText).map pyStrip
      (if 1 ≤ ps.length then [pyUpper (pyIdx ps 0)] else []) ++
        (if 2 ≤ ps.length then [", ", pyUpper (pyIdx ps 1)] else []) ++
        (if 3 ≤ ps.length then [", ", pyUpper (pyIdx ps 2)] else [])
    else [pyUpper titleText]
  let dateParts :=
    if p.dates ≠ "" then
      let d := pyUpper (pyStrip (stripLeadDatesRender p.dates))
      [" | ", d] ++
        (if location ≠ "" ∧ !pyIn location (pyUpper titleText) then
          [" | ", pyUpper location]
         else [])
    else []
  String.join (titleParts ++ dateParts)

/-- One project block, or `none` when the empty-project guard (lines 309-311) skips it. -/
structure ProjBlock where
  headerText : String
  items : List WorkItem
deriving DecidableEq, Repr

def renderProject (p : Project) : Option ProjBlock :=
  if p.title = "" ∧ p.responsibilities = [] then none
  else
    some { headerText := projectHeaderText p,
           items := (p.responsibilities.map renderResp).flatten ++
             (if p.technologies ≠ [] then
               [WorkItem.techLine ("Technologies: " ++ String.intercalate ", " p.technologies)]
              else []) }

/-- The full-width work-experience region (lines 273-449): present only when the
parsed content has at least one project. -/
def renderWorkExp (c : PState) : Option (List ProjBlock) :=
  if c.projects ≠ [] then some (c.projects.filterMap renderProject) else none

/-! ## Option-valued scanner: every Python subscript (`parts[i]`, `education[-1]`)
is modelled as a fallible lookup, so the scanner's totality states that every
guard in the source protects its access. -/

/-- `combinedStep` with the `education[-1]` access made fallible. -/
def combinedStepO (st : PState) (clean : String) : Option PState :=
  let isEdu := eduKw.any (fun k => pyIn k (pyLower clean))
  let isLocYear := !isEdu && !st.education.isEmpty &&
    (pyIn "|" clean || yearSearch clean) && clean.length < 50 &&
    !certKw.any (fun k => pyIn k (pyLower clean))
  if isEdu then
    let ec := pyStrip (rstripDot clean)
    if ec ≠ "" ∧ 5 < ec.length then some { st with education := [ec] } else some st
  else if isLocYear then
    if st.education ≠ [] then
      match pyLastQ st.education with
      | some last => some { st with education := st.education.dropLast ++ [last ++ ", " ++ clean] }
      | none => none
    else some st
  else
    let cc := pyStrip (rstripDot clean)
    if cc ≠ "" ∧ 3 < cc.length then some { st with certifications := st.certifications ++ [cc] }
    else some st

/-- `projStep` with the `parts[i]` accesses made fallible. -/
def projStepO (st : PState) (line ll : String) : Option PState :=
  if combinedHeaderCond line then
    let parts := projParts line
    if 2 ≤ parts.length then
      match pyIdxQ parts 0, pyIdxQ parts 1,
          (if 2 < parts.length then pyIdxQ parts 2 else some "") with
      | some p0, some p1, some p2 =>
        some { st with projects := savePrev st,
                       currentProject := some ⟨p0, pyStrip (stripLeadDates p1), p2, [], []⟩ }
      | _, _, _ => none
    else some st
  else if legacyDatesCond line ll then
    let d0 := pyStrip (removeLabs ["dates:", "date:"] line)
    let dl := datesLoc d0
    match st.currentProject with
    | some cp =>
      let cp2 := { cp with dates := dl.1,
                           location := if dl.2 ≠ "" then dl.2 else cp.location }
      some { st with currentProject := some cp2 }
    | none => some st
  else if pyIn "technologies:" ll then
    let techText := pyStrip (removeLabs ["technologies:", "technologie:"] line)
    let techs := ((techSplit techText).map pyStrip).filter (· ≠ "")
    match st.currentProject with
    | some cp => some { st with currentProject := some { cp with technologies := techs } }
    | none => some st
  else if bulletLineCond line then
    let clean := pyStrip (stripBullet line)
    match st.currentProject with
    | some cp =>
      if clean ≠ "" ∧ 5 < clean.length then
        if !bulletKw.any (fun k => pyIn k (pyLower clean)) then
          let cp2 := { cp with responsibilities := cp.responsibilities ++ [clean] }
          some { st with currentProject := some cp2 }
        else some st
      else some st
    | none => some st
  else if catHeaderCond line ll then
    match st.currentProject with
    | some cp =>
      if line ≠ "" ∧ countC line ':' = 1 then
        if !catKw.any (fun k => pyIn k ll) then
          let cp2 := { cp with responsibilities := cp.responsibilities ++ [line] }
          some { st with currentProject := some cp2 }
        else some st
      else some st
    | none => some st
  else if bareLineCond line ll then
    if !startsDate line && !pyIn "technologies" ll then
      if likelyTitle
          (match st.currentProject with
           | some cp => !cp.responsibilities.isEmpty
           | none => false) line ll then
        some { st with projects := savePrev st,
                       currentProject := some ⟨line, "", "", [], []⟩ }
      else
        match st.currentProject with
        | some cp =>
          if 150 < line.length then
            let sents := ((sentSplit line).map pyStrip).filter
              (fun s => s ≠ "" && decide (10 < s.length))
            let cp2 := { cp with responsibilities := cp.responsibilities ++ sents }
            some { st with currentProject := some cp2 }
          else if 10 < line.length then
            let cp2 := { cp with responsibilities := cp.responsibilities ++ [line] }
            some { st with currentProject := some cp2 }
          else some st
        | none => some st
    else some st
  else some st

/-- `procLine` with fallible subscripts. -/
def procLineO (st : PState) (raw : String) : Option PState :=
  let line := pyStrip raw
  if line = "" then some st
  else
    let ll := pyLower line
    if headerCond st line then some { st with header := line }
    else if markerSkip line then some st
    else if markerReset1 line then some { st with currentSection := none }
    else if markerReset2 line then some { st with currentSection := none }
    else
      match detectSection line ll with
      | some s => some { st with currentSection := some s }
      | none =>
        match st.currentSection with
        | none => some st
        | some .summary =>
          if line ≠ "" ∧ !pyStarts line "-" ∧ !pyStarts line "•" then
            some { st with summary := st.summary ++ [line] }
          else some st
        | some .projects => projStepO st line ll
        | some sec =>
          if rerouteKw ll then some { st with currentSection := rerouteTarget ll }
          else
            let clean := pyStrip (stripBullet line)
            match sec with
            | .eduCertCombined => combinedStepO st clean
            | _ => some (flatBody st sec clean)

/-- The fallible whole-input scanner. -/
def parseDatamaticsContentO (text : String) : Option PState :=
  ((pySplitChar '\n' text).foldlM procLineO initState).map finalizeProjects

/-! ## Logo acquisition (`_download_logo`, lines 690-713) and the header's
try/except around it (lines 672-685), abstracted over an I/O environment. -/

/-- Outcome of the remote `requests.get` call. -/
inductive RemoteResult
  | response (status : Nat) (body : Nat)
  | exn
deriving DecidableEq, Repr

/-- I/O environment: `localFile = none` means the asset path does not exist,
`some none` means the local read raises, `some (some b)` means it yields bytes `b`;
`addPictureOk = false` makes `run.add_picture` raise. -/
structure LogoEnv where
  localFile : Option (Option Nat)
  remote : RemoteResult
  addPictureOk : Bool
deriving DecidableEq, Repr

/-- The remote fallback considered alone: body on HTTP 200, nothing otherwise. -/
def remoteOk (env : LogoEnv) : Option Nat :=
  match env.remote with
  | .response status body => if status = 200 then some body else none
  | .exn => none

/-- `_download_logo`: local file first, remote URL on any local failure; all
failures are swallowed and yield `none`. -/
def downloadLogo (env : LogoEnv) : Option Nat :=
  match env.localFile with
  | some (some b) => some b
  | _ => remoteOk env

/-- The body of the `try` block of lines 673-682 (`_download_logo` then
`add_picture`), as a fallible computation. -/
def addLogoAttempt (env : LogoEnv) : Except String (Option Nat) :=
  match downloadLogo env with
  | some b => if env.addPictureOk then .ok (some b) else .error "add_picture failed"
  | none => .ok none

/-- The rendered header band with its optional logo: the `except` clause at
line 683 recovers from any logo failure and continues without a logo. -/
structure HeaderBand where
  runs : List RunSpec
  logo : Option Nat
deriving DecidableEq, Repr

/-- `_add_document_header`: always produces a band; logo errors are caught. -/
def addDocumentHeader (env : LogoEnv) (headerText : String) : HeaderBand :=
  { runs := headerBandRuns headerText,
    logo :=
      match addLogoAttempt env with
      | .ok l => l
      | .error _ => none }

/-! ## Project-dict field model for the shape invariant: both creation sites
(lines 930-936 and line 992) populate all five keys, and every update to a
project in the scanner only rewrites existing keys. -/

/-- The five keys of a project dict. -/
inductive PField
  | title
  | dates
  | location
  | responsibilities
  | technologies
deriving DecidableEq, Repr

/-- A value stored under a project key: a string or a list of strings. -/
inductive PVal
  | s (v : String)
  | l (v : List String)
deriving DecidableEq, Repr

/-- A project dict as an open-ended key-value map, as in the Python source. -/
def ProjDict : Type := PField → Option PVal

/-- Creation site 1 (lines 930-936): combined single-line project header. -/
def mkProjectHeaderD (t d loc : String) : ProjDict := fun f =>
  match f with
  | .title => some (.s t)
  | .dates => some (.s d)
  | .location => some (.s loc)
  | .responsibilities => some (.l [])
  | .technologies => some (.l [])

/-- Creation site 2 (line 992): bare title line. -/
def mkProjectTitleD (t : String) : ProjDict := mkProjectHeaderD t "" ""

/-- Overwrite one key of a project dict. -/
def setFieldD (d : ProjDict) (f : PField) (v : PVal) : ProjDict := fun g =>
  if g = f then some v else d g

/-- Read the responsibilities list of a project dict (empty on missing/mistyped key). -/
def getRespD (d : ProjDict) : List String :=
  match d .responsibilities with
  | some (.l v) => v
  | _ => []

/-- The dicts reachable in the scanner: created at one of the two sites, then
updated only by the scanner's assignments (`dates`, `location`, `technologies`
overwrites and `responsibilities` appends). -/
inductive ProjReachable : ProjDict → Prop
  | header (t d loc : String) : ProjReachable (mkProjectHeaderD t d loc)
  | bare (t : String) : ProjReachable (mkProjectTitleD t)
  | setDates (d : ProjDict) (v : String) (h : ProjReachable d) :
      ProjReachable (setFieldD d .dates (.s v))
  | setLocation (d : ProjDict) (v : String) (h : ProjReachable d) :
      ProjReachable (setFieldD d .location (.s v))
  | setTechs (d : ProjDict) (vs : List String) (h : ProjReachable d) :
      ProjReachable (setFieldD d .technologies (.l vs))
  | pushResp (d : ProjDict) (v : List String) (h : ProjReachable d) :
      ProjReachable (setFieldD d .responsibilities (.l (getRespD d ++ v)))

/-- The shape each key must have: strings under the three string keys, lists
under the two list keys. -/
def fieldShape : PField → PVal → Bool
  | .title, .s _ => true
  | .dates, .s _ => true
  | .location, .s _ => true
  | .responsibilities, .l _ => true
  | .technologies, .l _ => true
  | _, _ => false

/-! ## Fixtures and predicates used by the theorems -/

/-- The end-to-end scenario blob of the specification (§8). -/
def e2eBlob : String :=
  "[HEADER]\nJane Doe | QA Lead\n\n[LEFT_COLUMN_START]\nTechnical Skills:\nCloud: AWS, Azure\n[LEFT_COLUMN_END]\n\n[PROJECTS_EXPERIENCE]\nQA Lead / Acme | 01/2019 – 01/2021\n- Led testing efforts across three teams.\nTechnologies: Selenium, JIRA"

/-- The same blob with the `Projects Experience` keyword line the scanner needs
after the `[PROJECTS_EXPERIENCE]` marker (the marker itself only resets the section). -/
def e2eBlobFixed : String :=
  "[HEADER]\nJane Doe | QA Lead\n\n[LEFT_COLUMN_START]\nTechnical Skills:\nCloud: AWS, Azure\n[LEFT_COLUMN_END]\n\n[PROJECTS_EXPERIENCE]\nProjects Experience\nQA Lead / Acme | 01/2019 – 01/2021\n- Led testing efforts across three teams.\nTechnologies: Selenium, JIRA"

/-- Structurer start state: scanning inside the projects section. -/
def structurerInit : PState := { initState with currentSection := some Sect.projects }

/-- Structurer state with an open fresh project (for the interleaving scenario). -/
def c2Start : PState :=
  { structurerInit with currentProject := some ⟨"Data Platform Modernization", "", "", [], []⟩ }

/-- The four interleaved lines of the responsibility/category scenario. -/
def c2Lines : List String :=
  ["ETL Development:", "- did X", "- did Y", "Technologies: A, B"]

/-- Projects-section input whose final in-progress project has neither title nor
responsibilities. -/
def c4Input : String := "Projects Experience:\n| 01/2020 – 02/2021"

/-- The cleaned education text stored by both education branches
(bullet strip, then `re.sub(r'\.$','')`, then `strip`). -/
def eduCleanOf (raw : String) : String :=
  pyStrip (rstripDot (pyStrip (stripBullet (pyStrip raw))))

/-- A line is an accepted education candidate for the given section: it survives
the marker checks and section re-detection, and the education branch guards of
lines 858-865 (combined section) or 877-886 (education section) accept it. -/
def EduCandidate (sec : Sect) (raw : String) : Prop :=
  pyStrip raw ≠ "" ∧ markerSkip (pyStrip raw) = false ∧
    markerReset1 (pyStrip raw) = false ∧ markerReset2 (pyStrip raw) = false ∧
    detectSection (pyStrip raw) (pyLower (pyStrip raw)) = none ∧
    rerouteKw (pyLower (pyStrip raw)) = false ∧
    (match sec with
     | .education =>
       eduCleanOf raw ≠ "" ∧ 5 < (eduCleanOf raw).length ∧
         echo8.contains (pyLower (eduCleanOf raw)) = false
     | .eduCertCombined =>
       eduKw.any (fun k => pyIn k (pyLower (pyStrip (stripBullet (pyStrip raw))))) = true ∧
         eduCleanOf raw ≠ "" ∧ 5 < (eduCleanOf raw).length
     | _ => False)

/-- Prefix runs of the scanner over an input text. -/
def parseSteps (text : String) (n : Nat) : PState :=
  ((pySplitChar '\n' text).take n).foldl procLine initState

/-- Fixture state for the education-candidate witness. -/
def eduWitnessState : PState := { initState with currentSection := some Sect.education }

/-- Fixture project with a title only. -/
def titleOnlyProject : Project := ⟨"Data Engineer / Initech", "", "", [], []⟩

/-- Fixture project with no title, responsibilities, or technologies. -/
def emptyProject : Project := ⟨"", "", "", [], []⟩

/-- Fixture environment in which the local read raises and the remote fetch
returns HTTP 503. -/
def bothFailEnv : LogoEnv := ⟨some none, .response 503 7, true⟩

/-- Fixture reachable project dict. -/
def witnessDict : ProjDict :=
  setFieldD (mkProjectHeaderD "QA Lead / Acme" "01/2019 – 01/2021" "Lahore")
    .responsibilities (.l (getRespD (mkProjectHeaderD "QA Lead / Acme" "01/2019 – 01/2021" "Lahore") ++ ["Led testing"]))

/-! ## Helper lemmas -/

theorem pyLastQ_eq : ∀ (l : List String), l ≠ [] → pyLastQ l = some (pyLast l)
  | [], h => absurd rfl h
  | [_], _ => rfl
  | _ :: y :: t, _ => by
    have ih := pyLastQ_eq (y :: t) (by simp)
    simpa [pyLastQ, pyLast] using ih

theorem pyIdxQ_eq : ∀ (l : List String) (n : Nat), n < l.length → pyIdxQ l n = some (pyIdx l n)
  | [], n, h => by simp at h
  | _ :: _, 0, _ => rfl
  | _ :: t, n + 1, h => by
    have ih := pyIdxQ_eq t n (by simpa using h)
    simpa [pyIdxQ, pyIdx] using ih

theorem combinedStepO_eq (st : PState) (clean : String) :
    combinedStepO st clean = some (combinedStep st clean) := by
  simp only [combinedStepO, combinedStep]
  split_ifs with h1 h2 h3 h4 <;> try rfl
  rw [pyLastQ_eq st.education h4]

theorem idxThird_eq (parts : List String) :
    (if 2 < parts.length then pyIdxQ parts 2 else some "") =
      some (if 2 < parts.length then pyIdx parts 2 else "") := by
  split
  · exact pyIdxQ_eq parts 2 (by omega)
  · rfl

theorem iteO_eq {c : Prop} [Decidable c] {tO eO : Option PState} {t e : PState}
    (ht : c → tO = some t) (he : ¬c → eO = some e) :
    (if c then tO else eO) = some (if c then t else e) := by
  split
  · exact ht ‹_›
  · exact he ‹_›

theorem projStepO_eq (st : PState) (line ll : String) :
    projStepO st line ll = some (projStep st line ll) := by
  unfold projStepO projStep
  refine iteO_eq (fun hc1 => ?_) (fun hc1 => ?_)
  · dsimp only
    refine iteO_eq (fun hlen => ?_) (fun _ => rfl)
    rw [pyIdxQ_eq _ 0 (by omega), pyIdxQ_eq _ 1 (by omega), idxThird_eq]
  · refine iteO_eq (fun hc2 => ?_) (fun hc2 => ?_)
    · cases st.currentProject <;> rfl
    · refine iteO_eq (fun hc3 => ?_) (fun hc3 => ?_)
      · cases st.currentProject <;> rfl
      · refine iteO_eq (fun hc4 => ?_) (fun hc4 => ?_)
        · cases st.currentProject
          · rfl
          · dsimp only
            repeat' split
            all_goals rfl
        · refine iteO_eq (fun hc5 => ?_) (fun hc5 => ?_)
          · cases st.currentProject
            · rfl
            · dsimp only
              repeat' split
              all_goals rfl
          · refine iteO_eq (fun hc6 => ?_) (fun _ => rfl)
            refine iteO_eq (fun hc7 => ?_) (fun _ => rfl)
            refine iteO_eq (fun hc8 => ?_) (fun hc8 => ?_)
            · rfl
            · cases st.currentProject
              · rfl
              · dsimp only
                repeat' split
                all_goals rfl

theorem procLineO_eq (st : PState) (raw : String) :
    procLineO st raw = some (procLine st raw) := by
  unfold procLineO procLine
  dsimp only
  refine iteO_eq (fun h0 => rfl) (fun h0 => ?_)
  refine iteO_eq (fun h1 => rfl) (fun h1 => ?_)
  refine iteO_eq (fun h2 => rfl) (fun h2 => ?_)
  refine iteO_eq (fun h3 => rfl) (fun h3 => ?_)
  refine iteO_eq (fun h4 => rfl) (fun h4 => ?_)
  cases hD : detectSection (pyStrip raw) (pyLower (pyStrip raw)) with
  | some s => rfl
  | none =>
    cases hsec : st.currentSection with
    | none => rfl
    | some sec =>
      cases sec
      case summary => dsimp only; split <;> rfl
      case projects => exact projStepO_eq st (pyStrip raw) (pyLower (pyStrip raw))
      case technicalSkills =>
        exact iteO_eq (fun hr => rfl) (fun hr => rfl)
      case industryExperience =>
        exact iteO_eq (fun hr => rfl) (fun hr => rfl)
      case functionalSkills =>
        exact iteO_eq (fun hr => rfl) (fun hr => rfl)
      case education =>
        exact iteO_eq (fun hr => rfl) (fun hr => rfl)
      case certifications =>
        exact iteO_eq (fun hr => rfl) (fun hr => rfl)
      case eduCertCombined =>
        refine iteO_eq (fun hr => rfl) (fun hr => ?_)
        exact combinedStepO_eq st (pyStrip (stripBullet (pyStrip raw)))

theorem foldlM_procLineO : ∀ (l : List String) (st : PState),
    l.foldlM procLineO st = some (l.foldl procLine st)
  | [], _ => rfl
  | x :: t, st => by
    rw [List.foldlM_cons, procLineO_eq, List.foldl_cons]
    exact foldlM_procLineO t (procLine st x)

theorem eduProj_ite {c : Prop} [Decidable c] {a b : PState} {v : List String}
    (ha : c → a.education = v) (hb : ¬c → b.education = v) :
    (if c then a else b).education = v := by
  split
  · exact ha ‹_›
  · exact hb ‹_›

theorem eduLen_ite {c : Prop} [Decidable c] {a b : PState}
    (ha : c → a.education.length ≤ 1) (hb : ¬c → b.education.length ≤ 1) :
    (if c then a else b).education.length ≤ 1 := by
  split
  · exact ha ‹_›
  · exact hb ‹_›

theorem projStep_education (st : PState) (line ll : String) :
    (projStep st line ll).education = st.education := by
  unfold projStep
  dsimp only
  refine eduProj_ite (fun h1 => ?_) (fun h1 => ?_)
  · exact eduProj_ite (fun h2 => rfl) (fun h2 => rfl)
  · refine eduProj_ite (fun h2 => ?_) (fun h2 => ?_)
    · cases st.currentProject <;> rfl
    · refine eduProj_ite (fun h3 => ?_) (fun h3 => ?_)
      · cases st.currentProject <;> rfl
      · refine eduProj_ite (fun h4 => ?_) (fun h4 => ?_)
        · cases st.currentProject
          · rfl
          · dsimp only
            refine eduProj_ite (fun h5 => ?_) (fun h5 => rfl)
            exact eduProj_ite (fun h6 => rfl) (fun h6 => rfl)
        · refine eduProj_ite (fun h5 => ?_) (fun h5 => ?_)
          · cases st.currentProject
            · rfl
            · dsimp only
              refine eduProj_ite (fun h6 => ?_) (fun h6 => rfl)
              exact eduProj_ite (fun h7 => rfl) (fun h7 => rfl)
          · refine eduProj_ite (fun h6 => ?_) (fun h6 => rfl)
            refine eduProj_ite (fun h7 => ?_) (fun h7 => rfl)
            refine eduProj_ite (fun h8 => rfl) (fun h8 => ?_)
            cases st.currentProject
            · rfl
            · dsimp only
              refine eduProj_ite (fun h9 => rfl) (fun h9 => ?_)
              exact eduProj_ite (fun h10 => rfl) (fun h10 => rfl)

theorem combinedStep_education_len (st : PState) (clean : String)
    (h : st.education.length ≤ 1) : (combinedStep st clean).education.length ≤ 1 := by
  unfold combinedStep
  dsimp only
  refine eduLen_ite (fun h1 => ?_) (fun h1 => ?_)
  · exact eduLen_ite (fun h2 => Nat.le_refl 1) (fun h2 => h)
  · refine eduLen_ite (fun h2 => ?_) (fun h2 => ?_)
    · refine eduLen_ite (fun h3 => ?_) (fun h3 => h)
      show (st.education.dropLast ++ [pyLast st.education ++ ", " ++ clean]).length ≤ 1
      simp only [List.length_append, List.length_dropLast, List.length_singleton]
      omega
    · exact eduLen_ite (fun h3 => h) (fun h3 => h)

theorem flatBody_education_len (st : PState) (sec : Sect) (clean : String)
    (h : st.education.length ≤ 1) : (flatBody st sec clean).education.length ≤ 1 := by
  unfold flatBody
  cases sec <;> dsimp only
  case education =>
    exact eduLen_ite (fun h1 => Nat.le_refl 1) (fun h1 => h)
  case technicalSkills =>
    refine eduLen_ite (fun h1 => ?_) (fun h1 => ?_) <;>
      exact eduLen_ite (fun h2 => h) (fun h2 => h)
  all_goals try exact h
  all_goals exact eduLen_ite (fun h1 => h) (fun h1 => h)

theorem procLine_education_len (st : PState) (raw : String)
    (h : st.education.length ≤ 1) : (procLine st raw).education.length ≤ 1 := by
  unfold procLine
  dsimp only
  refine eduLen_ite (fun h0 => h) (fun h0 => ?_)
  refine eduLen_ite (fun h1 => h) (fun h1 => ?_)
  refine eduLen_ite (fun h2 => h) (fun h2 => ?_)
  refine eduLen_ite (fun h3 => h) (fun h3 => ?_)
  refine eduLen_ite (fun h4 => h) (fun h4 => ?_)
  cases hD : detectSection (pyStrip raw) (pyLower (pyStrip raw)) with
  | some s => exact h
  | none =>
    cases hsec : st.currentSection with
    | none => exact h
    | some sec =>
      cases sec
      case summary => exact eduLen_ite (fun h5 => h) (fun h5 => h)
      case projects =>
        rw [projStep_education]
        exact h
      case eduCertCombined =>
        refine eduLen_ite (fun h5 => h) (fun h5 => ?_)
        exact combinedStep_education_len st _ h
      all_goals
        refine eduLen_ite (fun h5 => h) (fun h5 => ?_)
      all_goals exact flatBody_education_len st _ _ h

theorem foldl_education_len : ∀ (l : List String) (st : PState),
    st.education.length ≤ 1 → (l.foldl procLine st).education.length ≤ 1
  | [], _, h => h
  | x :: t, st, h => foldl_education_len t (procLine st x) (procLine_education_len st x h)

theorem eduCandidate_replace (st : PState) (sec : Sect) (raw : String)
    (hsec : st.currentSection = some sec) (hc : EduCandidate sec raw) :
    (procLine st raw).education = [eduCleanOf raw] := by
  have hh : headerCond st (pyStrip raw) = false := by
    simp [headerCond, hsec]
  obtain ⟨hne, hm1, hm2, hm3, hdet, hrr, hg⟩ := hc
  unfold procLine
  dsimp only
  refine eduProj_ite (fun h => absurd h hne) (fun _ => ?_)
  refine eduProj_ite (fun h => by simp [hh] at h) (fun _ => ?_)
  refine eduProj_ite (fun h => by simp [hm1] at h) (fun _ => ?_)
  refine eduProj_ite (fun h => by simp [hm2] at h) (fun _ => ?_)
  refine eduProj_ite (fun h => by simp [hm3] at h) (fun _ => ?_)
  rw [hdet, hsec]
  cases sec
  case education =>
    obtain ⟨hg1, hg2, hg3⟩ := hg
    dsimp only
    refine eduProj_ite (fun h => by simp [hrr] at h) (fun _ => ?_)
    unfold flatBody
    dsimp only
    have hg3x : echo8.contains
        (pyLower (pyStrip (rstripDot (pyStrip (stripBullet (pyStrip raw)))))) = false := hg3
    exact eduProj_ite (fun _ => rfl) (fun h => absurd ⟨hg1, hg2, by rw [hg3x]; rfl⟩ h)
  case eduCertCombined =>
    obtain ⟨hg1, hg2, hg3⟩ := hg
    dsimp only
    refine eduProj_ite (fun h => by simp [hrr] at h) (fun _ => ?_)
    unfold combinedStep
    dsimp only
    refine eduProj_ite (fun _ => ?_) (fun h => by simp [hg1] at h)
    exact eduProj_ite (fun _ => rfl) (fun h => absurd ⟨hg2, hg3⟩ h)
  all_goals exact hg.elim

/-! ## Claim theorems -/

/-- C1 (counterexample): on the specification's exact end-to-end blob, the scanner
produces no projects at all — the `[PROJECTS_EXPERIENCE]` marker only resets the
section — so the rendered work-experience region is absent, contradicting the
claimed single project block. -/
theorem e2e_blob_workexp_missing :
    (parseDatamaticsContent e2eBlob).projects = [] ∧
      renderWorkExp (parseDatamaticsContent e2eBlob) = none := ⟨rfl, rfl⟩

/-- C1 (amended): once the blob carries the `Projects Experience` keyword line
after the `[PROJECTS_EXPERIENCE]` marker, the pipeline renders the header band
with "Jane Doe" in black and "QA Lead" in the accent colour, a single bulleted
"Cloud:" category entry in the left column, and exactly one project block titled
`QA LEAD – ACME | 01/2019 – 01/2021` with one responsibility bullet and one
technologies line. -/
theorem e2e_blob_fixed_render :
    headerBandRuns (parseDatamaticsContent e2eBlobFixed).header =
        [⟨"Jane Doe | ", some (0, 0, 0), true⟩, ⟨"QA Lead", some (91, 155, 213), true⟩] ∧
      renderLeftColumn (parseDatamaticsContent e2eBlobFixed) =
        [.sectionHeader "Technical Skills", .categorySkill "Cloud" "AWS, Azure", .spacer] ∧
      renderWorkExp (parseDatamaticsContent e2eBlobFixed) =
        some [{ headerText := "QA LEAD – ACME | 01/2019 – 01/2021",
                items := [.bullet "Led testing efforts across three teams",
                          .techLine "Technologies: Selenium, JIRA"] }] := ⟨rfl, rfl, rfl⟩

/-- C2 (counterexample): under an open project, the four interleaved lines leave
only `["ETL Development:"]` in the responsibilities — the five-character bullets
"did X"/"did Y" fail the `len > 5` non-triviality guard — refuting the claimed
`["ETL Development:", "did X", "did Y"]`. -/
theorem interleaving_short_bullets_cex :
    (c2Lines.foldl procLine c2Start).currentProject.map Project.responsibilities =
        some ["ETL Development:"] ∧
      (c2Lines.foldl procLine c2Start).currentProject.map Project.responsibilities ≠
        some ["ETL Development:", "did X", "did Y"] := ⟨rfl, by decide⟩

/-- C2 (amended): for any open project with no prior responsibilities or
technologies, the four lines yield responsibilities `["ETL Development:"]` (the
short bullets are dropped by the length guard) and technologies `["A", "B"]`. -/
theorem interleaving_amended (t d loc : String) :
    (c2Lines.foldl procLine
        { structurerInit with currentProject := some ⟨t, d, loc, [], []⟩ }).currentProject =
      some ⟨t, d, loc, ["ETL Development:"], ["A", "B"]⟩ := rfl

/-- C3: the education field always holds at most one entry after every scanning
step, and processing an accepted education candidate replaces the whole list
with exactly that cleaned candidate, regardless of the previous state. -/
theorem education_last_entry :
    (∀ (text : String) (n : Nat), (parseSteps text n).education.length ≤ 1) ∧
      (∀ (st : PState) (sec : Sect) (raw : String), st.currentSection = some sec →
        EduCandidate sec raw → (procLine st raw).education = [eduCleanOf raw]) :=
  ⟨fun _ _ => foldl_education_len _ initState (by decide),
   eduCandidate_replace⟩

/-- Witness for C3 at a concrete prefix and a concrete accepted candidate. -/
theorem education_last_entry_witness :
    (parseSteps "Education:\nBSc | X University | 2012\nMSc | Y University | 2015" 3).education.length ≤ 1 ∧
      (procLine eduWitnessState "Bachelor of Science in CS | MIT | 2016").education =
        [eduCleanOf "Bachelor of Science in CS | MIT | 2016"] :=
  ⟨education_last_entry.1 _ 3,
   education_last_entry.2 eduWitnessState Sect.education _ rfl
     ⟨by decide, by decide, by decide, by decide, by decide, by decide,
      by decide, by decide, by decide⟩⟩

/-- C4 (counterexample): an input whose last in-progress project has neither a
title nor responsibilities still ends up in the parsed projects list, because
the end-of-input push is unconditional. -/
theorem final_project_push_cex :
    (parseDatamaticsContent c4Input).projects = [⟨"", "01/2020 – 02/2021", "", [], []⟩] ∧
      ∃ p ∈ (parseDatamaticsContent c4Input).projects,
        p.title = "" ∧ p.responsibilities = [] := by
  refine ⟨rfl, ⟨"", "01/2020 – 02/2021", "", [], []⟩, ?_, rfl, rfl⟩
  rw [show (parseDatamaticsContent c4Input).projects =
      [⟨"", "01/2020 – 02/2021", "", [], []⟩] from rfl]
  exact List.mem_singleton.mpr rfl

/-- C4 (amended): at end of input the last in-progress project is pushed
unconditionally whenever one exists; the title-or-responsibility filter applies
only to the mid-stream finalizations, so a blank project can reach the parsed
list (as the concrete input shows). -/
theorem final_project_push_unconditional :
    (∀ st : PState, (finalizeProjects st).projects = st.projects ++ st.currentProject.toList) ∧
      (parseDatamaticsContent c4Input).projects =
        [⟨"", "01/2020 – 02/2021", "", [], []⟩] := by
  refine ⟨fun st => ?_, rfl⟩
  cases h : st.currentProject <;> simp [finalizeProjects, h]

/-- C5: at render time a project with a title but no responsibilities and no
technologies is still emitted as a block, while a project with no title, no
responsibilities and no technologies is dropped silently. -/
theorem render_empty_project :
    (∀ p : Project, p.title ≠ "" → p.responsibilities = [] → p.technologies = [] →
        ∃ b, renderProject p = some b) ∧
      (∀ p : Project, p.title = "" → p.responsibilities = [] → p.technologies = [] →
        renderProject p = none) := by
  constructor
  · intro p h1 _ _
    exact ⟨_, by rw [renderProject, if_neg (fun h => h1 h.1)]⟩
  · intro p h1 h2 _
    simp [renderProject, h1, h2]

/-- Witness for C5 on a title-only project and on a fully empty project. -/
theorem render_empty_project_witness :
    (∃ b, renderProject titleOnlyProject = some b) ∧ renderProject emptyProject = none :=
  ⟨render_empty_project.1 titleOnlyProject (by decide) rfl rfl,
   render_empty_project.2 emptyProject rfl rfl rfl⟩

/-- C6: the single combined-format line yields exactly one ProjectEntry with the
claimed title, dates, location, and empty responsibilities. -/
theorem single_line_project_entry :
    (finalizeProjects
        (["DevOps Engineer / Acme Corp | 01/2020 – Present | Remote"].foldl procLine
          structurerInit)).projects =
      [⟨"DevOps Engineer / Acme Corp", "01/2020 – Present", "Remote", [], []⟩] := rfl

/-- C7 (counterexample): the render-time header predicate accepts the lower-case
string "technologies:" (its Technologies-exclusion is case-sensitive) while the
parse-time rule-5 predicate rejects it, so the two predicates are not equal. -/
theorem category_predicate_cex :
    isCategoryHeaderRender "technologies:" = true ∧
      isCategoryHeaderParse "technologies:" = false := ⟨rfl, rfl⟩

/-- C7 (amended): the two predicates agree on every string that carries no
leading bullet glyph, does not start with "Technologies" or, case-insensitively,
with "technologies" or "dates", and contains none of the parse-time section
keywords; on such strings both reduce to: ends in a single colon and is shorter
than 100 characters. -/
theorem category_predicates_agree (s : String)
    (hb1 : pyStarts s "-" = false) (hb2 : pyStarts s "•" = false)
    (hb3 : pyStarts s "▪" = false)
    (ht : pyStarts (pyLower s) "technologies" = false)
    (htc : pyStarts s "Technologies" = false)
    (hd : pyStarts (pyLower s) "dates" = false)
    (hk : catKw.any (fun k => pyIn k (pyLower s)) = false) :
    isCategoryHeaderRender s = isCategoryHeaderParse s := by
  simp [isCategoryHeaderRender, isCategoryHeaderParse, hb1, hb2, hb3, ht, htc, hd, hk]

/-- Witness for C7 on a typical category-header string. -/
theorem category_predicates_agree_witness :
    isCategoryHeaderRender "ETL Development:" = isCategoryHeaderParse "ETL Development:" :=
  category_predicates_agree "ETL Development:" rfl rfl rfl rfl rfl rfl rfl

/-- C8: the scanner is total — every guarded subscript of the Python source
succeeds, so the fallible scanner returns exactly the pure scanner's
ContentModel on every input text. -/
theorem structurer_total (text : String) :
    parseDatamaticsContentO text = some (parseDatamaticsContent text) := by
  unfold parseDatamaticsContentO parseDatamaticsContent
  rw [foldlM_procLineO]
  rfl

/-- C9: logo acquisition prefers the local asset, falls back to the remote URL,
and when both fail the header is still rendered, without a logo, with the text
runs unaffected — a logo failure never aborts the header rendering. -/
theorem logo_degrades_gracefully :
    (∀ (env : LogoEnv) (b : Nat), env.localFile = some (some b) → downloadLogo env = some b) ∧
      (∀ env : LogoEnv, env.localFile = none ∨ env.localFile = some none →
        downloadLogo env = remoteOk env) ∧
      (∀ (env : LogoEnv) (h : String), downloadLogo env = none →
        addDocumentHeader env h = ⟨headerBandRuns h, none⟩) ∧
      (∀ (env : LogoEnv) (h : String), (addDocumentHeader env h).runs = headerBandRuns h) := by
  refine ⟨fun env b hb => ?_, fun env hl => ?_, fun env h hdl => ?_, fun env h => rfl⟩
  · simp [downloadLogo, hb]
  · rcases hl with hl | hl <;> simp [downloadLogo, hl]
  · simp [addDocumentHeader, addLogoAttempt, hdl]

/-- Witness for C9 in an environment where the local read raises and the remote
fetch returns HTTP 503. -/
theorem logo_degrades_gracefully_witness :
    downloadLogo bothFailEnv = none ∧
      addDocumentHeader bothFailEnv "Jane Doe | QA Lead" =
        ⟨headerBandRuns "Jane Doe | QA Lead", none⟩ :=
  ⟨rfl, logo_degrades_gracefully.2.2.1 bothFailEnv "Jane Doe | QA Lead" rfl⟩

/-- C10: every project dict reachable from the two creation sites through the
scanner's updates has all five keys defined, with string values under title,
dates and location and list values under responsibilities and technologies. -/
theorem project_fields_always_defined (d : ProjDict) (h : ProjReachable d) :
    ∀ f : PField, ∃ v, d f = some v ∧ fieldShape f v = true := by
  induction h with
  | header t dt loc => intro f; cases f <;> exact ⟨_, rfl, rfl⟩
  | bare t => intro f; cases f <;> exact ⟨_, rfl, rfl⟩
  | setDates d v h ih =>
    intro f
    by_cases hf : f = PField.dates
    · subst hf; exact ⟨_, rfl, rfl⟩
    · obtain ⟨w, hw, hs⟩ := ih f
      exact ⟨w, by simpa [setFieldD, hf] using hw, hs⟩
  | setLocation d v h ih =>
    intro f
    by_cases hf : f = PField.location
    · subst hf; exact ⟨_, rfl, rfl⟩
    · obtain ⟨w, hw, hs⟩ := ih f
      exact ⟨w, by simpa [setFieldD, hf] using hw, hs⟩
  | setTechs d vs h ih =>
    intro f
    by_cases hf : f = PField.technologies
    · subst hf; exact ⟨_, rfl, rfl⟩
    · obtain ⟨w, hw, hs⟩ := ih f
      exact ⟨w, by simpa [setFieldD, hf] using hw, hs⟩
  | pushResp d v h ih =>
    intro f
    by_cases hf : f = PField.responsibilities
    · subst hf; exact ⟨_, rfl, rfl⟩
    · obtain ⟨w, hw, hs⟩ := ih f
      exact ⟨w, by simpa [setFieldD, hf] using hw, hs⟩

/-- Witness for C10 on a concrete reachable dict. -/
theorem project_fields_always_defined_witness :
    ∃ v, witnessDict PField.technologies = some v ∧
      fieldShape PField.technologies v = true :=
  project_fields_always_defined witnessDict
    (ProjReachable.pushResp _ _ (ProjReachable.header _ _ _)) PField.technologies
